import Mathlib

/-!
Verification of the workout-dashboard analytics pipeline (src/app.py).

Shallow embedding notes.
* A pandas row of the loaded CSV is a `Record`.  `pd.to_datetime(..., errors :=
  coerce)` and `isocalendar()` are external library calls, so a parsed date is
  modelled as an abstract `Timestamp` carrying the linear day index
  (`dt.date`), the ISO week number (`isocalendar().week`) and the ISO year;
  an unparsable date is `none` (pandas `NaT`).
* Missing / non-numeric cells (`NaN`) are `Option` `none`; `fillna` is
  `Option.getD`.  Column arithmetic on a frame is a per-record function, and
  `groupby` is `List.filter` by the group key (pandas drops `NaN` group keys,
  which is why groupings go through `Option`-valued key functions).
* The dictionaries `prs_weight` / `prs_reps` built by
  `df.groupby("Exercise")[...].max().to_dict()` are embedded as lookup
  functions with the code's `.get(key, -1)` default; a group whose values are
  all `NaN` yields a `NaN` dictionary entry, modelled as `none` (compares
  false against every number, as in pandas).
* All numbers are `ℚ`.  Weights/reps in the data are nonnegative; theorems
  that need this state it as an explicit hypothesis, mirroring the spec's
  data-model invariant (section 3: `actual_weight`, `volume`, reps are >= 0).
-/

/-- A parsed timestamp, as produced by `pd.to_datetime`: `day` is the linear
day index (orders dates, `dt.date`), `isoWeek` is `isocalendar().week`, and
`isoYear` is the ISO week-numbering year of the date. -/
structure Timestamp where
  day : Nat
  isoWeek : Nat
  isoYear : Nat
  deriving DecidableEq

/-- One row of the loaded workout CSV after date parsing (line 25 of
src/app.py): `date` is `none` when `pd.to_datetime` coerced it to `NaT`;
`exercise`, `reps`, `weight` (column `Weight(kg)`) and `multiplier` are
`none` when the cell is `NaN`. -/
structure Record where
  date : Option Timestamp
  exercise : Option String
  reps : Option ℚ
  weight : Option ℚ
  multiplier : Option ℚ
  deriving DecidableEq

/-- Python `str.lower` on the character list of a name (ASCII data). -/
def lowerChars (s : String) : List Char := s.toList.map Char.toLower

/-- Substring test: `needle` occurs contiguously in the haystack. -/
def hasSub (needle : List Char) : List Char → Bool
  | [] => needle.isEmpty
  | c :: rest => needle.isPrefixOf (c :: rest) || hasSub needle rest

/-- The exclusion alternatives of the regex `"Stair Stepper|Cycling"`
(line 29), already lower-cased as `case=False` does. -/
def excludedKw : List String := ["stair stepper", "cycling"]

/-- One row of `df["Exercise"].str.contains("Stair Stepper|Cycling",
case=False, na=False)`: a missing exercise name gives `False` (`na=False`). -/
def excluded (r : Record) : Bool :=
  match r.exercise with
  | none => false
  | some e => excludedKw.any fun k => hasSub k.toList (lowerChars e)

/-- Line 29, `df = df[~df["Exercise"].str.contains(...)]`: the only row
filter of the load phase.  Rows whose date failed to parse are NOT dropped
here (nothing in src/app.py drops them).  (Named `normalizeRows` because
`normalize` is taken by the ambient library.) -/
def normalizeRows (raw : List Record) : List Record := raw.filter fun r => !excluded r

/-- Line 32: `Actual Weight (kg) = Weight(kg).fillna(0) * multiplier.fillna(1)`. -/
def actualWeight (r : Record) : ℚ := r.weight.getD 0 * r.multiplier.getD 1

/-- Line 33: `Volume (kg) = Actual Weight (kg) * Reps.fillna(0)`. -/
def volume (r : Record) : ℚ := actualWeight r * r.reps.getD 0

/-- Lines 36-40: `1RM Estimate = aw * (1 + Reps / 30) if aw > 0 else None`.
`Reps` is NOT `fillna`-ed here, so a `NaN` rep count propagates to a
missing estimate (`none` covers both `None` and `NaN`, which behave
identically under the later `dropna`/`groupby`). -/
def oneRM (r : Record) : Option ℚ :=
  if 0 < actualWeight r then r.reps.map fun n => actualWeight r * (1 + n / 30) else none

/-- Maximum of a list of rationals with a seed (fold of `max`). -/
def qmax (l : List ℚ) (d : ℚ) : ℚ := l.foldr max d

/-- Maximum of a list of rationals, `none` on the empty list (the `NaN`
that pandas `max` returns on an all-`NaN` column). -/
def qmaxOpt : List ℚ → Option ℚ
  | [] => none
  | x :: xs => some (qmax xs x)

/-- The actual weights feeding `prs_weight[e]` (lines 43-48): records of
exercise `e` with positive actual weight. -/
def weightedBest (c : List Record) (e : String) : List ℚ :=
  (c.filter fun s => decide (s.exercise = some e) && decide (0 < actualWeight s)).map
    actualWeight

/-- Embeds `prs_weight.get(ex, -1)` (line 60): the dictionary of lines 43-48 has a
key for `e` iff some record of `e` has positive actual weight, and its value
is the group maximum (positive, so the `-1` seed of `qmax` is inert); a
missing key — including the `NaN` key a missing name hashes to — yields the
default `-1`. -/
def prsWeightGet (c : List Record) : Option String → ℚ
  | none => -1
  | some e => qmax (weightedBest c e) (-1)

/-- The bodyweight group of exercise `e` (lines 49-54): records of `e` whose
actual weight is exactly `0`. -/
def bodyweightGroup (c : List Record) (e : String) : List Record :=
  c.filter fun s => decide (s.exercise = some e) && decide (actualWeight s = 0)

/-- Embeds `prs_reps.get(ex, -1)` (line 58): `some (-1)` when the key is absent
(no bodyweight record of that exercise, or a missing name), `none` when the
key exists but its group maximum is `NaN` (every rep cell of the group
missing), and otherwise the group's maximal rep count. -/
def prsRepsGet (c : List Record) : Option String → Option ℚ
  | none => some (-1)
  | some e =>
    let grp := bodyweightGroup c e
    if grp.isEmpty then some (-1) else qmaxOpt (grp.filterMap Record.reps)

/-- Lines 56-62, `assign_pr`: the PR flag of one row given the whole corpus
(`"🏅"` becomes `true`).  A `NaN` rep count or a `NaN` dictionary value
compares unequal to everything, as in Python. -/
def assign_pr (c : List Record) (r : Record) : Bool :=
  if actualWeight r = 0 then
    match r.reps, prsRepsGet c r.exercise with
    | some n, some b => decide (n = b)
    | _, _ => false
  else
    decide (actualWeight r = prsWeightGet c r.exercise)

/-- Python `str(name)` on a possibly-missing exercise cell: `str(nan)` is
the string `"nan"`. -/
def pyStr : Option String → String
  | none => "nan"
  | some s => s

/-- Lower-body keywords of `classify_exercise` (lines 67-68). -/
def lowerKw : List String :=
  ["squat", "deadlift", "lunge", "leg", "hamstring", "calf",
   "hip thrust", "thrust", "glute", "rdl", "good morning"]

/-- Push keywords of `classify_exercise` (lines 69-70). -/
def pushKw : List String :=
  ["bench", "overhead press", "shoulder press", "incline",
   "dip", "dips", "push", "tricep"]

/-- Pull keywords of `classify_exercise` (line 71). -/
def pullKw : List String :=
  ["row", "pulldown", "pull-up", "curl", "face pull", "shrug", "chin"]

/-- Embeds `any(k in n for k in kws)` where `n = str(name).lower()`. -/
def kwHit (kws : List String) (name : Option String) : Bool :=
  kws.any fun k => hasSub k.toList (lowerChars (pyStr name))

/-- Lines 65-75, `classify_exercise`: ordered keyword groups, first match
wins, `Other` as fallback. -/
def classify_exercise (name : Option String) : String :=
  if kwHit lowerKw name then "Lower"
  else if kwHit pushKw name then "Push"
  else if kwHit pullKw name then "Pull"
  else "Other"

/-- Line 80: `df["Week"] = df["Date"].dt.isocalendar().week`; `NaT` gives a
missing week key (dropped by every later `groupby`). -/
def recordWeek (r : Record) : Option Nat := r.date.map Timestamp.isoWeek

/-- Day key of a record (`df["Day"] = df["Date"].dt.date`, line 26). -/
def recordDay (r : Record) : Option Nat := r.date.map Timestamp.day

/-- The distinct week keys in ascending order: `groupby("Week")` emits its
groups with sorted keys and drops the `NaN` key. -/
def weekKeysAsc (c : List Record) : List Nat :=
  List.insertionSort (· ≤ ·) (c.filterMap recordWeek).dedup

/-- The rows of the week-`w` group. -/
def weekGroup (c : List Record) (w : Nat) : List Record :=
  c.filter fun r => decide (recordWeek r = some w)

/-- One row of the `weekly_summary` frame (lines 81-96). -/
structure WeeklyRow where
  week : Nat
  totalVolume : ℚ
  heaviest : ℚ
  totalReps : ℚ
  uniqueExercises : Nat
  deriving DecidableEq

/-- The aggregates of lines 82-94 for one week group: sum of volume, max
actual weight, sum of reps (pandas `sum` skips `NaN`), number of distinct
exercise names (`nunique` skips `NaN`).  The group is nonempty for every
emitted key, so the `getD 0` default of the maximum is never consulted. -/
def weeklyRow (c : List Record) (w : Nat) : WeeklyRow :=
  { week := w
    totalVolume := ((weekGroup c w).map volume).sum
    heaviest := (qmaxOpt ((weekGroup c w).map actualWeight)).getD 0
    totalReps := ((weekGroup c w).filterMap Record.reps).sum
    uniqueExercises := ((weekGroup c w).filterMap Record.exercise).dedup.length }

/-- Lines 81-96: grouped rows, then `sort_values("Week", ascending=False)` —
the ascending `groupby` key order reversed. -/
def weekly_summary (c : List Record) : List WeeklyRow :=
  (weekKeysAsc c).reverse.map (weeklyRow c)

/-- Line 144-147: the per-week total volumes in ascending week order
(`.sort_values('Week')`), the series the ACWR column is computed over. -/
def weeklyVolumes (c : List Record) : List ℚ :=
  (weekKeysAsc c).map fun w => ((weekGroup c w).map volume).sum

/-- The window `rolling(4, min_periods=1)` sees at index `i`: the last
`min 4 (i+1)` elements up to and including index `i`. -/
def rollingWindow (l : List ℚ) (i : Nat) : List ℚ := (l.take (i + 1)).drop (i + 1 - 4)

/-- The value `rolling(4, min_periods=1).mean()` takes at index `i`. -/
def chronicAt (l : List ℚ) (i : Nat) : ℚ :=
  (rollingWindow l i).sum / ((rollingWindow l i).length : ℚ)

/-- Line 148 at index `i`: `Total Volume / rolling mean`.  A zero mean is the
pandas `0.0 / 0.0 = NaN` case (volumes are nonnegative sums, so a zero
rolling mean forces a zero numerator), modelled as `none`. -/
def acwrAt (l : List ℚ) (i : Nat) : Option ℚ :=
  if chronicAt l i = 0 then none else some (l.getD i 0 / chronicAt l i)

/-- The ACWR value of the most recent week: the last entry of the `ACWR`
column of line 148 (`none` when there is no data at all). -/
def acwrLatest (c : List Record) : Option ℚ :=
  if (weeklyVolumes c).isEmpty then none
  else acwrAt (weeklyVolumes c) ((weeklyVolumes c).length - 1)

/-- Line 165: day keys of
`df.dropna(subset=['1RM Estimate']).groupby('Day')...sort_values('Day')` —
the distinct days of records owning an estimate, ascending; a `NaT` day is
dropped by the `groupby`. -/
def irmDayKeys (c : List Record) : List Nat :=
  List.insertionSort (· ≤ ·)
    ((c.filter fun r => (oneRM r).isSome).filterMap recordDay).dedup

/-- The estimates feeding day `d` of the series of line 165. -/
def irmDayGroup (c : List Record) (d : Nat) : List ℚ :=
  (c.filter fun r => decide (recordDay r = some d)).filterMap oneRM

/-- Line 165: the 1RM trend series — for each day the maximum estimate.
Built from the WHOLE frame `df`: no exercise filter and no time window. -/
def irmSeries (c : List Record) : List (Nat × ℚ) :=
  (irmDayKeys c).map fun d => (d, (qmaxOpt (irmDayGroup c d)).getD 0)

/-- The "filter by exercise" view (`df[df["Exercise"] == selected_ex]`,
line 114) whose rows feed the full-exercise CSV export. -/
def filterByExercise (c : List Record) (ex : String) : List Record :=
  c.filter fun r => decide (r.exercise = some ex)

/-- Modelled from the spec (section 4.2): `intensity_percent` is absent from
src/app.py (the spec distills it from other variants of the script).  Per
the spec's words, the all-time per-exercise maximum of
`one_rep_max_estimate`, taken over the entire corpus. -/
def allTimeMax (c : List Record) (ex : Option String) : ℚ :=
  (qmaxOpt ((c.filter fun r => decide (r.exercise = ex)).filterMap oneRM)).getD 0

/-- Modelled from the spec (section 4.2): `intensity_percent =
one_rep_max_estimate / all_time_max × 100` for weighted sets
(`actual_weight > 0`), `0` otherwise; the maximum is over the entire
corpus `c`, never a filtered view. -/
def intensityPercent (c : List Record) (r : Record) : ℚ :=
  if 0 < actualWeight r then (oneRM r).getD 0 / allTimeMax c r.exercise * 100 else 0

/-- Modelled from the spec (section 4.7): the ACWR classification bands —
absent from src/app.py, which only charts the raw ratio.  `0.8 ≤ x ≤ 1.3`
is Optimal, above is High-fatigue, below is Under-training. -/
def acwrBand (x : ℚ) : String :=
  if x < 8 / 10 then "Under-training"
  else if x ≤ 13 / 10 then "Optimal"
  else "High-fatigue"

/-- Spec-side definition for claim C7 (section 4.8), kept for comparison
with `irmSeries`: filter the records of the selected exercise to the
trailing `nWeeks`-week window (`day ≥ today − 7·nWeeks`, saturating), then
group by day and take per-day maxima exactly as the code does. -/
def specTrendSeries (c : List Record) (ex : String) (today : Nat) (nWeeks : Nat) :
    List (Nat × ℚ) :=
  irmSeries (c.filter fun r =>
    decide (r.exercise = some ex) &&
      match recordDay r with
      | some d => decide (today ≤ d + 7 * nWeeks)
      | none => false)

/-- Spec-side definition for claim C8: the volume a true ISO week — the
pair (ISO year, ISO week number) — accumulates, following the claim's words
"the sum of `volume` over enriched records whose date falls in that ISO
week". -/
def specIsoWeekVolume (c : List Record) (y w : Nat) : ℚ :=
  ((c.filter fun r =>
      match r.date with
      | some t => decide (t.isoYear = y) && decide (t.isoWeek = w)
      | none => false).map volume).sum

/-! ## Helper lemmas about list maxima -/

theorem le_qmax_of_mem {l : List ℚ} {x : ℚ} (d : ℚ) (hx : x ∈ l) : x ≤ qmax l d := by
  induction l with
  | nil => cases hx
  | cons a t ih =>
    rcases List.mem_cons.1 hx with rfl | hx
    · exact le_max_left _ _
    · exact (ih hx).trans (le_max_right _ _)

theorem seed_le_qmax (l : List ℚ) (d : ℚ) : d ≤ qmax l d := by
  induction l with
  | nil => exact le_refl d
  | cons a t ih => exact ih.trans (le_max_right _ _)

theorem qmax_mem_or (l : List ℚ) (d : ℚ) : qmax l d = d ∨ qmax l d ∈ l := by
  induction l with
  | nil => exact Or.inl rfl
  | cons a t ih =>
    have hm : qmax (a :: t) d = max a (qmax t d) := rfl
    rcases max_choice a (qmax t d) with h | h
    · exact Or.inr (by rw [hm, h]; exact List.mem_cons_self a t)
    · rcases ih with h' | h'
      · exact Or.inl (by rw [hm, h, h'])
      · exact Or.inr (by rw [hm, h]; exact List.mem_cons_of_mem a h')

theorem qmaxOpt_mem {l : List ℚ} {m : ℚ} (h : qmaxOpt l = some m) : m ∈ l := by
  cases l with
  | nil => cases h
  | cons a t =>
    obtain rfl : qmax t a = m := by simpa [qmaxOpt] using h
    rcases qmax_mem_or t a with h' | h'
    · rw [h']; exact List.mem_cons_self a t
    · exact List.mem_cons_of_mem a h'

theorem le_qmaxOpt_of_mem {l : List ℚ} {x m : ℚ} (hx : x ∈ l) (h : qmaxOpt l = some m) :
    x ≤ m := by
  cases l with
  | nil => cases hx
  | cons a t =>
    obtain rfl : qmax t a = m := by simpa [qmaxOpt] using h
    rcases List.mem_cons.1 hx with rfl | hx
    · exact seed_le_qmax t x
    · exact le_qmax_of_mem a hx

theorem qmaxOpt_of_ne_nil {l : List ℚ} (h : l ≠ []) : ∃ m, qmaxOpt l = some m := by
  cases l with
  | nil => exact absurd rfl h
  | cons a t => exact ⟨qmax t a, rfl⟩

/-! ## Concrete corpora used by counterexamples and witnesses -/

/-- A set record with a parsed date, named exercise, and numeric fields. -/
def mkRec (ts : Timestamp) (e : String) (n w m : ℚ) : Record :=
  { date := some ts, exercise := some e, reps := some n, weight := some w, multiplier := some m }

/-- Five one-set weeks whose weekly volumes, most recent first, are
`[1000, 800, 900, 1000, 1100]` — scenario 3 of the spec. -/
def demoAcwr : List Record :=
  [mkRec ⟨0, 1, 2025⟩ "Bench Press" 1 1100 1,
   mkRec ⟨7, 2, 2025⟩ "Bench Press" 1 1000 1,
   mkRec ⟨14, 3, 2025⟩ "Bench Press" 1 900 1,
   mkRec ⟨21, 4, 2025⟩ "Bench Press" 1 800 1,
   mkRec ⟨28, 5, 2025⟩ "Bench Press" 1 1000 1]

/-- A corpus holding exactly one week of data, with weekly volume 500. -/
def demoOneWeek : List Record := [mkRec ⟨0, 1, 2025⟩ "Bench Press" 1 500 1]

/-- A corpus holding exactly one week of zero volume. -/
def demoZeroWeek : List Record := [mkRec ⟨0, 1, 2025⟩ "Pull-Up" 10 0 1]

/-! ## C2 — Epley estimate -/

/-- C2 counterexample: the code has no `reps > 1` branch.  At one rep of
100 kg the code's estimate is `100 × (1 + 1/30) = 310/3 ≈ 103.33`, while
the claim demands `actual_weight = 100`. -/
theorem C2_counterexample_rep_one :
    oneRM (mkRec ⟨0, 1, 2024⟩ "Bench Press" 1 100 1) = some (310 / 3) ∧
      (310 / 3 : ℚ) ≠ 100 := by
  constructor
  · norm_num [oneRM, mkRec, actualWeight]
  · norm_num

/-- C2 amended: for every record with positive actual weight and a numeric
rep count, `one_rep_max_estimate = actual_weight × (1 + reps/30)` — for ALL
rep counts, with no special case at `reps ≤ 1`; the estimate is missing
(`none`) whenever `actual_weight ≤ 0` or the rep count is missing. -/
theorem C2_epley_no_branch (r : Record) :
    (∀ n : ℚ, r.reps = some n → 0 < actualWeight r →
        oneRM r = some (actualWeight r * (1 + n / 30))) ∧
    (actualWeight r ≤ 0 → oneRM r = none) ∧
    (r.reps = none → oneRM r = none) := by
  refine ⟨fun n hn hw => ?_, fun hw => ?_, fun hn => ?_⟩
  · simp [oneRM, hn, hw]
  · simp [oneRM, not_lt.2 hw]
  · simp [oneRM, hn]

/-- Scenario 5 of the spec: bench press, 50 kg per unit, multiplier 2,
5 reps. -/
def benchExample : Record := mkRec ⟨10, 2, 2025⟩ "Bench Press" 5 50 2

/-- Witness for C2: the spec's own example evaluates to
`100 × (1 + 5/30) = 350/3 ≈ 116.67`. -/
theorem C2_epley_no_branch_witness :
    oneRM benchExample = some (actualWeight benchExample * (1 + 5 / 30)) ∧
      actualWeight benchExample * (1 + 5 / 30) = 350 / 3 :=
  ⟨(C2_epley_no_branch benchExample).1 5 rfl
      (by norm_num [actualWeight, benchExample, mkRec]),
   by norm_num [actualWeight, benchExample, mkRec]⟩

/-! ## C5 — ACWR division safety -/

/-- C5 counterexample: with a single week of data (weekly volume 500) the
code produces the ratio `500 / 500 = 1`, not a "not computable" result as
the claim demands for fewer than 2 weeks of data. -/
theorem C5_counterexample_single_week : acwrLatest demoOneWeek = some 1 := by
  norm_num [acwrLatest, acwrAt, chronicAt, rollingWindow, weeklyVolumes, weekKeysAsc,
    weekGroup, recordWeek, demoOneWeek, mkRec, volume, actualWeight, List.insertionSort,
    List.orderedInsert, List.dedup, List.filterMap, List.filter]

/-- C5 amended: the ACWR column is total and never divides by zero — a zero
rolling mean yields the `NaN` sentinel (`none`), a nonzero mean yields the
quotient — but a single week of data still yields the ratio `1` (the week
divided by its own one-element rolling mean) rather than "not computable". -/
theorem C5_acwr_zero_chronic (c : List Record) :
    (∀ i : Nat, chronicAt (weeklyVolumes c) i = 0 → acwrAt (weeklyVolumes c) i = none) ∧
    (∀ i : Nat, chronicAt (weeklyVolumes c) i ≠ 0 →
        acwrAt (weeklyVolumes c) i =
          some ((weeklyVolumes c).getD i 0 / chronicAt (weeklyVolumes c) i)) ∧
    (∀ v : ℚ, weeklyVolumes c = [v] → v ≠ 0 → acwrLatest c = some 1) := by
  refine ⟨fun i h => ?_, fun i h => ?_, fun v hv hne => ?_⟩
  · simp [acwrAt, h]
  · simp [acwrAt, h]
  · rw [acwrLatest, hv]
    simp [acwrAt, chronicAt, rollingWindow, hne, div_self hne]

/-- Witness for C5: a week of zero volume gives the sentinel, a lone week
of volume 500 gives ratio 1. -/
theorem C5_acwr_zero_chronic_witness :
    acwrAt (weeklyVolumes demoZeroWeek) 0 = none ∧ acwrLatest demoOneWeek = some 1 :=
  ⟨(C5_acwr_zero_chronic demoZeroWeek).1 0
      (by norm_num [chronicAt, rollingWindow, weeklyVolumes, weekKeysAsc, weekGroup,
        recordWeek, demoZeroWeek, mkRec, volume, actualWeight, List.insertionSort,
        List.orderedInsert, List.dedup, List.filterMap, List.filter]),
   (C5_acwr_zero_chronic demoOneWeek).2.2 500
      (by norm_num [weeklyVolumes, weekKeysAsc, weekGroup, recordWeek, demoOneWeek, mkRec,
        volume, actualWeight, List.insertionSort, List.orderedInsert, List.dedup,
        List.filterMap, List.filter])
      (by norm_num)⟩

/-! ## C9 — classifier precedence -/

/-- C9: the classifier is a pure function of the lower-cased name testing
the keyword groups in the fixed precedence Lower, then Push, then Pull,
else Other — first match wins, so a name hitting both a Lower keyword and a
Push/Pull keyword is classified `Lower`. -/
theorem C9_classifier_precedence (name : Option String) :
    (classify_exercise name = "Lower" ↔ kwHit lowerKw name = true) ∧
    (classify_exercise name = "Push" ↔
      (kwHit lowerKw name = false ∧ kwHit pushKw name = true)) ∧
    (classify_exercise name = "Pull" ↔
      (kwHit lowerKw name = false ∧ kwHit pushKw name = false ∧ kwHit pullKw name = true)) ∧
    (classify_exercise name = "Other" ↔
      (kwHit lowerKw name = false ∧ kwHit pushKw name = false ∧
        kwHit pullKw name = false)) := by
  cases hl : kwHit lowerKw name <;> cases hp : kwHit pushKw name <;>
    cases hq : kwHit pullKw name <;> simp [classify_exercise, hl, hp, hq]

/-- Witness for C9: a name containing both "squat" and "row" is `Lower`. -/
theorem C9_classifier_precedence_witness :
    classify_exercise (some "Back Squat Row") = "Lower" :=
  (C9_classifier_precedence (some "Back Squat Row")).1.2 (by decide)

/-! ## C10 — missing exercise name -/

/-- C10: a record with a missing exercise name is retained by the exclusion
filter (`na=False`) and classified `Other` (Python stringifies the `NaN` to
`"nan"`, which hits no keyword); neither operation can fail. -/
theorem C10_null_exercise_total (r : Record) (h : r.exercise = none) :
    excluded r = false ∧ classify_exercise r.exercise = "Other" ∧
    (∀ c : List Record, r ∈ c → r ∈ normalizeRows c) := by
  refine ⟨by simp [excluded, h], by rw [h]; decide, fun c hr => ?_⟩
  have he : excluded r = false := by simp [excluded, h]
  simp [normalizeRows, List.mem_filter, hr, he]

/-- A bodyweight record with a missing exercise cell. -/
def nullExRec : Record :=
  { date := some ⟨0, 1, 2024⟩, exercise := none, reps := some 10,
    weight := some 0, multiplier := some 1 }

/-- Witness for C10 at a concrete record. -/
theorem C10_null_exercise_total_witness :
    excluded nullExRec = false ∧ classify_exercise nullExRec.exercise = "Other" ∧
      nullExRec ∈ normalizeRows [nullExRec] :=
  ⟨(C10_null_exercise_total nullExRec rfl).1,
   (C10_null_exercise_total nullExRec rfl).2.1,
   (C10_null_exercise_total nullExRec rfl).2.2 [nullExRec] (List.mem_singleton.2 rfl)⟩

/-! ## C3 — unparsable dates -/

theorem filterMap_week_dated (c : List Record) :
    (c.filter fun s => s.date.isSome).filterMap recordWeek = c.filterMap recordWeek := by
  induction c with
  | nil => rfl
  | cons r t ih =>
    cases hd : r.date with
    | none => simp [List.filter_cons, List.filterMap_cons, recordWeek, hd, ih]
    | some ts => simp [List.filter_cons, List.filterMap_cons, recordWeek, hd, ih]

theorem weekGroup_dated (c : List Record) (w : Nat) :
    weekGroup (c.filter fun s => s.date.isSome) w = weekGroup c w := by
  rw [weekGroup, weekGroup, List.filter_filter]
  apply List.filter_congr
  intro r _
  cases hd : r.date <;> simp [recordWeek, hd]

theorem weekly_summary_dated (c : List Record) :
    weekly_summary (c.filter fun s => s.date.isSome) = weekly_summary c := by
  have hk : weekKeysAsc (c.filter fun s => s.date.isSome) = weekKeysAsc c := by
    rw [weekKeysAsc, weekKeysAsc, filterMap_week_dated]
  have hr : weeklyRow (c.filter fun s => s.date.isSome) = weeklyRow c := by
    funext w
    rw [weeklyRow, weeklyRow, weekGroup_dated]
  rw [weekly_summary, weekly_summary, hk, hr]

theorem filterMap_day_core (c : List Record) (p : Record → Bool) :
    (c.filter fun a => p a && a.date.isSome).filterMap recordDay =
      (c.filter p).filterMap recordDay := by
  induction c with
  | nil => rfl
  | cons r t ih =>
    cases hd : r.date with
    | none =>
      cases hp : p r <;>
        simp [List.filter_cons, List.filterMap_cons, recordDay, hd, hp, ih]
    | some ts =>
      cases hp : p r <;>
        simp [List.filter_cons, List.filterMap_cons, recordDay, hd, hp, ih]

theorem irmDayKeys_dated (c : List Record) :
    irmDayKeys (c.filter fun s => s.date.isSome) = irmDayKeys c := by
  rw [irmDayKeys, irmDayKeys, List.filter_filter, filterMap_day_core]

theorem irmDayGroup_dated (c : List Record) (d : Nat) :
    irmDayGroup (c.filter fun s => s.date.isSome) d = irmDayGroup c d := by
  rw [irmDayGroup, irmDayGroup, List.filter_filter]
  congr 1
  apply List.filter_congr
  intro r _
  cases hd : r.date <;> simp [recordDay, hd]

theorem irmSeries_dated (c : List Record) :
    irmSeries (c.filter fun s => s.date.isSome) = irmSeries c := by
  rw [irmSeries, irmSeries, irmDayKeys_dated]
  exact List.map_congr_left fun d _ => by rw [irmDayGroup_dated]

/-- C3 amended: a record whose date failed to parse is NOT discarded — the
load phase only filters excluded exercise names, so the record stays in the
enriched collection (and reaches the exercise-filtered view that feeds the
full-exercise CSV export) — but it contributes nothing to the weekly
summaries or to the day-keyed 1RM series (its `NaN` week/day key is dropped
by every `groupby`), and nothing raises. -/
theorem C3_bad_date_flow (c : List Record) (r : Record) (hr : r ∈ c)
    (he : excluded r = false) :
    r ∈ normalizeRows c ∧
    (∀ ex : String, r.exercise = some ex → r ∈ filterByExercise (normalizeRows c) ex) ∧
    weekly_summary (c.filter fun s => s.date.isSome) = weekly_summary c ∧
    irmSeries (c.filter fun s => s.date.isSome) = irmSeries c := by
  have hn : r ∈ normalizeRows c := by
    simp [normalizeRows, List.mem_filter, hr, he]
  refine ⟨hn, fun ex hex => ?_, weekly_summary_dated c, irmSeries_dated c⟩
  simp [filterByExercise, List.mem_filter, hn, hex]

/-- A record whose `Date` cell failed to parse (`NaT`). -/
def badDateRec : Record :=
  { date := none, exercise := some "Bench Press", reps := some 5,
    weight := some 100, multiplier := some 1 }

/-- C3 counterexample: the unparsable-date record is retained by the load
phase and appears verbatim in the exercise-filtered collection (the CSV
export source), contradicting "absent from every output collection"; it is
only the weekly summary that omits it. -/
theorem C3_counterexample_bad_date_retained :
    normalizeRows [badDateRec] = [badDateRec] ∧ badDateRec.date = none ∧
    filterByExercise (normalizeRows [badDateRec]) "Bench Press" = [badDateRec] ∧
    weekly_summary (normalizeRows [badDateRec]) = [] := by
  exact ⟨rfl, rfl, rfl, rfl⟩

/-- Witness for C3 at the concrete corpus `[badDateRec]`. -/
theorem C3_bad_date_flow_witness :
    badDateRec ∈ normalizeRows [badDateRec] ∧
      badDateRec ∈ filterByExercise (normalizeRows [badDateRec]) "Bench Press" :=
  ⟨(C3_bad_date_flow [badDateRec] badDateRec (List.mem_singleton.2 rfl) (by decide)).1,
   (C3_bad_date_flow [badDateRec] badDateRec (List.mem_singleton.2 rfl) (by decide)).2.1
      "Bench Press" rfl⟩

/-! ## C4 — ACWR window -/

theorem getLast?_map_option {α β : Type} (f : α → β) (l : List α) :
    (l.map f).getLast? = l.getLast?.map f := by
  induction l with
  | nil => rfl
  | cons a t ih =>
    cases t with
    | nil => rfl
    | cons b u =>
      simp only [List.map_cons, List.getLast?_cons_cons] at ih ⊢
      exact ih

theorem getD_last {α : Type} (l : List α) (d : α) :
    l.getD (l.length - 1) d = l.getLast?.getD d := by
  induction l with
  | nil => rfl
  | cons a t ih =>
    cases t with
    | nil => rfl
    | cons b u =>
      simp only [List.length_cons, Nat.add_sub_cancel] at ih ⊢
      rw [List.getD_cons_succ, List.getLast?_cons_cons]
      simpa using ih

theorem getLast?_some_of_ne_nil {α : Type} : ∀ l : List α, l ≠ [] → ∃ m, l.getLast? = some m
  | [a], _ => ⟨a, rfl⟩
  | a :: b :: u, _ => by
    obtain ⟨m, hm⟩ := getLast?_some_of_ne_nil (b :: u) (by simp)
    exact ⟨m, by rw [List.getLast?_cons_cons]; exact hm⟩

theorem sorted_le_last : ∀ (l : List Nat) (m : Nat), l.Sorted (· ≤ ·) →
    l.getLast? = some m → ∀ x ∈ l, x ≤ m := by
  intro l
  induction l with
  | nil => intro m _ _ x hx; cases hx
  | cons a t ih =>
    intro m hs hm x hx
    cases t with
    | nil =>
      have h1 : x = a := by simpa using hx
      have h2 : a = m := by simpa using hm
      rw [h1, h2]
    | cons b u =>
      have hm2 : (b :: u).getLast? = some m := by
        rw [List.getLast?_cons_cons] at hm; exact hm
      have hs2 : (b :: u).Sorted (· ≤ ·) := (List.sorted_cons.1 hs).2
      rcases List.mem_cons.1 hx with rfl | hx2
      · have h1 : x ≤ b := (List.sorted_cons.1 hs).1 b (List.mem_cons_self b u)
        have h2 : b ≤ m := ih m hs2 hm2 b (List.mem_cons_self b u)
        exact h1.trans h2
      · exact ih m hs2 hm2 x hx2

theorem rollingWindow_last (l : List ℚ) (h : l ≠ []) :
    rollingWindow l (l.length - 1) = l.drop (l.length - 4) := by
  rw [rollingWindow, Nat.sub_add_cancel (Nat.one_le_iff_ne_zero.2 (by simpa using h)),
    List.take_length]

/-- C4 counterexample: on the spec's own example — weekly volumes
`[1000, 800, 900, 1000, 1100]` most recent first — the code's rolling mean
INCLUDES the acute week, so it divides `1000` by
`mean(1000, 900, 800, 1000) = 925`, giving `40/37 ≈ 1.081`, not the claimed
`1000 / 950 ≈ 1.053`. -/
theorem C4_counterexample_window :
    acwrLatest demoAcwr = some (40 / 37) ∧ (40 / 37 : ℚ) ≠ 1000 / 950 := by
  constructor
  · norm_num [acwrLatest, acwrAt, chronicAt, rollingWindow, weeklyVolumes, weekKeysAsc,
      weekGroup, recordWeek, demoAcwr, mkRec, volume, actualWeight, List.insertionSort,
      List.orderedInsert, List.dedup_cons_of_not_mem, List.dedup_cons_of_mem,
      List.filterMap, List.filter]
  · norm_num

/-- C4 amended: the latest ACWR value divides the most recent week's total
volume by the mean of the last `min 4 n` weekly volumes INCLUDING the acute
week itself (`rolling(4, min_periods=1)` looks back over the current row
and at most three prior rows); the acute value is the total volume of the
largest week key.  A zero mean gives the sentinel. -/
theorem C4_acwr_window (c : List Record) (h : weeklyVolumes c ≠ []) :
    acwrLatest c =
      (if ((weeklyVolumes c).drop ((weeklyVolumes c).length - 4)).sum /
          (((weeklyVolumes c).drop ((weeklyVolumes c).length - 4)).length : ℚ) = 0 then none
       else some (((weeklyVolumes c).getLast?).getD 0 /
          (((weeklyVolumes c).drop ((weeklyVolumes c).length - 4)).sum /
            (((weeklyVolumes c).drop ((weeklyVolumes c).length - 4)).length : ℚ)))) ∧
    (∃ wm, (weekKeysAsc c).getLast? = some wm ∧ (∀ w ∈ weekKeysAsc c, w ≤ wm) ∧
       (weeklyVolumes c).getLast? = some (((weekGroup c wm).map volume).sum)) := by
  constructor
  · rw [acwrLatest, if_neg (by simpa [List.isEmpty_iff] using h)]
    rw [acwrAt, chronicAt, rollingWindow_last _ h, getD_last]
  · have hk : weekKeysAsc c ≠ [] := fun hnil => h (by rw [weeklyVolumes, hnil]; rfl)
    obtain ⟨wm, hwm⟩ := getLast?_some_of_ne_nil _ hk
    refine ⟨wm, hwm, sorted_le_last _ wm ?_ hwm, ?_⟩
    · rw [weekKeysAsc]; exact List.sorted_insertionSort _ _
    · rw [weeklyVolumes, getLast?_map_option, hwm]
      rfl

/-- Witness for C4 at the five-week example corpus; the ratio `40/37` it
produces there still falls in the spec-modelled Optimal band. -/
theorem C4_acwr_window_witness :
    (∃ wm, (weekKeysAsc demoAcwr).getLast? = some wm ∧
      (∀ w ∈ weekKeysAsc demoAcwr, w ≤ wm) ∧
      (weeklyVolumes demoAcwr).getLast? =
        some (((weekGroup demoAcwr wm).map volume).sum)) ∧
    acwrBand (40 / 37) = "Optimal" :=
  ⟨(C4_acwr_window demoAcwr
    (by
      norm_num [weeklyVolumes, weekKeysAsc, weekGroup, recordWeek, demoAcwr, mkRec,
        volume, actualWeight, List.insertionSort, List.orderedInsert,
        List.dedup_cons_of_not_mem, List.dedup_cons_of_mem, List.filterMap,
        List.filter]
      exact List.cons_ne_nil _ _)).2,
   by norm_num [acwrBand]⟩

/-! ## C7 — 1RM trend series -/

theorem pairwise_lt_sort_dedup (l : List Nat) :
    (List.insertionSort (· ≤ ·) l.dedup).Pairwise (· < ·) := by
  have hs : (List.insertionSort (· ≤ ·) l.dedup).Pairwise (· ≤ ·) :=
    List.sorted_insertionSort _ _
  have hn : (List.insertionSort (· ≤ ·) l.dedup).Pairwise (· ≠ ·) :=
    ((List.perm_insertionSort _ _).nodup_iff).2 (List.nodup_dedup l)
  exact (hs.and hn).imp fun h => lt_of_le_of_ne h.1 h.2

theorem mem_irmDayKeys {c : List Record} {d : Nat} :
    d ∈ irmDayKeys c ↔ ∃ r ∈ c, (oneRM r).isSome = true ∧ recordDay r = some d := by
  rw [irmDayKeys, List.mem_insertionSort, List.mem_dedup, List.mem_filterMap]
  constructor
  · rintro ⟨r, hr, hd⟩
    rw [List.mem_filter] at hr
    exact ⟨r, hr.1, hr.2, hd⟩
  · rintro ⟨r, hr, h1, h2⟩
    exact ⟨r, List.mem_filter.2 ⟨hr, h1⟩, h2⟩

theorem mem_irmDayGroup {c : List Record} {d : Nat} {v : ℚ} :
    v ∈ irmDayGroup c d ↔ ∃ r ∈ c, recordDay r = some d ∧ oneRM r = some v := by
  rw [irmDayGroup, List.mem_filterMap]
  constructor
  · rintro ⟨r, hr, hv⟩
    rw [List.mem_filter] at hr
    exact ⟨r, hr.1, by simpa using hr.2, hv⟩
  · rintro ⟨r, hr, h1, h2⟩
    exact ⟨r, List.mem_filter.2 ⟨hr, by simpa using h1⟩, h2⟩

theorem mem_irmSeries {c : List Record} {d : Nat} {v : ℚ} :
    (d, v) ∈ irmSeries c ↔ d ∈ irmDayKeys c ∧ v = (qmaxOpt (irmDayGroup c d)).getD 0 := by
  rw [irmSeries, List.mem_map]
  constructor
  · rintro ⟨a, ha, heq⟩
    obtain ⟨rfl, rfl⟩ : a = d ∧ (qmaxOpt (irmDayGroup c a)).getD 0 = v := by
      simpa [Prod.ext_iff] using heq
    exact ⟨ha, rfl⟩
  · rintro ⟨hd, rfl⟩
    exact ⟨d, hd, rfl⟩

/-- C7 amended: the 1RM trend series of line 165 is built from ALL records
owning an estimate — every exercise, no trailing time window; it is keyed
by strictly increasing days, each value is the maximum estimate of that day
over the whole frame (attained by some record), and every day of a record
with an estimate appears.  The regression of line 168 is then fitted by the
charting library over exactly this unfiltered series. -/
theorem C7_series_all_records (c : List Record) :
    ((irmSeries c).map Prod.fst).Pairwise (· < ·) ∧
    (∀ d v, (d, v) ∈ irmSeries c →
        (∃ r ∈ c, recordDay r = some d ∧ oneRM r = some v) ∧
        (∀ r ∈ c, recordDay r = some d → ∀ u, oneRM r = some u → u ≤ v)) ∧
    (∀ r ∈ c, ∀ d, recordDay r = some d → ∀ u, oneRM r = some u →
        ∃ v, (d, v) ∈ irmSeries c ∧ u ≤ v) := by
  refine ⟨?_, ?_, ?_⟩
  · have hk : (irmSeries c).map Prod.fst = irmDayKeys c := by
      rw [irmSeries, List.map_map]
      exact (List.map_congr_left fun a _ => rfl).trans (List.map_id _)
    rw [hk, irmDayKeys]
    exact pairwise_lt_sort_dedup _
  · intro d v hdv
    obtain ⟨hd, rfl⟩ := mem_irmSeries.1 hdv
    obtain ⟨r0, hr0, hs0, hd0⟩ := mem_irmDayKeys.1 hd
    obtain ⟨u0, hu0⟩ := Option.isSome_iff_exists.1 hs0
    have hu0mem : u0 ∈ irmDayGroup c d := mem_irmDayGroup.2 ⟨r0, hr0, hd0, hu0⟩
    obtain ⟨m, hm⟩ := qmaxOpt_of_ne_nil (List.ne_nil_of_mem hu0mem)
    constructor
    · obtain ⟨r, hr, hrd, hrv⟩ := mem_irmDayGroup.1 (qmaxOpt_mem hm)
      exact ⟨r, hr, hrd, by rw [hm]; exact hrv⟩
    · intro r hr hrd u hu
      have hmem : u ∈ irmDayGroup c d := mem_irmDayGroup.2 ⟨r, hr, hrd, hu⟩
      have hle := le_qmaxOpt_of_mem hmem hm
      rw [hm]
      exact hle
  · intro r hr d hrd u hu
    have hd : d ∈ irmDayKeys c :=
      mem_irmDayKeys.2 ⟨r, hr, by rw [hu]; rfl, hrd⟩
    refine ⟨(qmaxOpt (irmDayGroup c d)).getD 0, mem_irmSeries.2 ⟨hd, rfl⟩, ?_⟩
    have hmem : u ∈ irmDayGroup c d := mem_irmDayGroup.2 ⟨r, hr, hrd, hu⟩
    obtain ⟨m, hm⟩ := qmaxOpt_of_ne_nil (List.ne_nil_of_mem hmem)
    rw [hm]
    exact le_qmaxOpt_of_mem hmem hm

/-- Two weighted records of different exercises on days almost two years
apart. -/
def demoTrend : List Record :=
  [mkRec ⟨0, 1, 2024⟩ "Bench Press" 1 100 1, mkRec ⟨700, 49, 2025⟩ "Squat" 1 200 1]

/-- C7 counterexample: the code's series over `demoTrend` contains both
days — including day 0, owned only by the bench-press record — so it is not
the series the claim describes for the selected exercise "Squat" with an
8-week window ending on day 700 (which holds only day 700). -/
theorem C7_counterexample_no_filter :
    irmSeries demoTrend = [(0, 310 / 3), (700, 620 / 3)] ∧
    specTrendSeries demoTrend "Squat" 700 8 = [(700, 620 / 3)] ∧
    irmSeries demoTrend ≠ specTrendSeries demoTrend "Squat" 700 8 := by
  have h1 : irmSeries demoTrend = [(0, 310 / 3), (700, 620 / 3)] := by
    norm_num [irmSeries, irmDayKeys, irmDayGroup, recordDay, oneRM, demoTrend, mkRec,
      actualWeight, qmaxOpt, qmax, List.insertionSort, List.orderedInsert,
      List.dedup_cons_of_not_mem, List.dedup_cons_of_mem, List.filterMap, List.filter]
  have h2 : specTrendSeries demoTrend "Squat" 700 8 = [(700, 620 / 3)] := by
    norm_num [specTrendSeries, irmSeries, irmDayKeys, irmDayGroup, recordDay, oneRM,
      demoTrend, mkRec, actualWeight, qmaxOpt, qmax, List.insertionSort,
      List.orderedInsert, List.dedup_cons_of_not_mem, List.dedup_cons_of_mem,
      List.filterMap, List.filter]
  refine ⟨h1, h2, ?_⟩
  rw [h1, h2]
  simp

/-- Witness for C7: on `demoTrend` the series entry of day 0 is attained by
a record of the corpus. -/
theorem C7_series_all_records_witness :
    ∃ r ∈ demoTrend, recordDay r = some 0 ∧ oneRM r = some (310 / 3) :=
  (((C7_series_all_records demoTrend).2.1 0 (310 / 3)) (by
    have h1 : irmSeries demoTrend = [(0, 310 / 3), (700, 620 / 3)] := by
      norm_num [irmSeries, irmDayKeys, irmDayGroup, recordDay, oneRM, demoTrend, mkRec,
        actualWeight, qmaxOpt, qmax, List.insertionSort, List.orderedInsert,
        List.dedup_cons_of_not_mem, List.dedup_cons_of_mem, List.filterMap, List.filter]
    rw [h1]
    simp)).1

/-! ## C8 — weekly summary -/

theorem mem_weekKeysAsc {c : List Record} {w : Nat} :
    w ∈ weekKeysAsc c ↔ ∃ r ∈ c, recordWeek r = some w := by
  rw [weekKeysAsc, List.mem_insertionSort, List.mem_dedup, List.mem_filterMap]

theorem mem_weekGroup {c : List Record} {w : Nat} {r : Record} :
    r ∈ weekGroup c w ↔ r ∈ c ∧ recordWeek r = some w := by
  rw [weekGroup, List.mem_filter]
  simp

theorem mem_weekly_summary {c : List Record} {row : WeeklyRow} :
    row ∈ weekly_summary c ↔ ∃ w ∈ weekKeysAsc c, weeklyRow c w = row := by
  rw [weekly_summary, List.mem_map]
  constructor
  · rintro ⟨w, hw, rfl⟩
    exact ⟨w, List.mem_reverse.1 hw, rfl⟩
  · rintro ⟨w, hw, rfl⟩
    exact ⟨w, List.mem_reverse.2 hw, rfl⟩

/-- C8 amended: the weekly summary is keyed by the ISO week NUMBER alone
(`isocalendar().week`, the year is not part of the key, so equal week
numbers of different years share one row); each row aggregates its
week-number group exactly as claimed — volume sum, attained maximum of
actual weight, rep sum, distinct named exercises — the rows are ordered by
strictly descending week number, and every week number present in the
corpus owns a row. -/
theorem C8_weekly_rows (c : List Record) :
    ((weekly_summary c).map WeeklyRow.week).Pairwise (· > ·) ∧
    (∀ row ∈ weekly_summary c,
        row.totalVolume = ((weekGroup c row.week).map volume).sum ∧
        row.totalReps = ((weekGroup c row.week).filterMap Record.reps).sum ∧
        row.uniqueExercises =
          ((weekGroup c row.week).filterMap Record.exercise).dedup.length ∧
        (∀ r ∈ c, recordWeek r = some row.week → actualWeight r ≤ row.heaviest) ∧
        (∃ r ∈ c, recordWeek r = some row.week ∧ actualWeight r = row.heaviest)) ∧
    (∀ w : Nat, (∃ r ∈ c, recordWeek r = some w) ↔
        ∃ row ∈ weekly_summary c, row.week = w) := by
  refine ⟨?_, ?_, ?_⟩
  · have hk : (weekly_summary c).map WeeklyRow.week = (weekKeysAsc c).reverse := by
      rw [weekly_summary, List.map_map]
      exact (List.map_congr_left fun a _ => rfl).trans (List.map_id _)
    rw [hk, List.pairwise_reverse, weekKeysAsc]
    exact pairwise_lt_sort_dedup _
  · intro row hrow
    obtain ⟨w, hw, rfl⟩ := mem_weekly_summary.1 hrow
    obtain ⟨r0, hr0, hw0⟩ := mem_weekKeysAsc.1 hw
    have hr0g : r0 ∈ weekGroup c w := mem_weekGroup.2 ⟨hr0, hw0⟩
    have hne : (weekGroup c w).map actualWeight ≠ [] := by
      intro hnil
      rw [List.map_eq_nil_iff] at hnil
      rw [hnil] at hr0g
      cases hr0g
    obtain ⟨m, hm⟩ := qmaxOpt_of_ne_nil hne
    have hheavy : (weeklyRow c w).heaviest = m := by
      rw [weeklyRow]
      simp only [hm, Option.getD_some]
    refine ⟨rfl, rfl, rfl, ?_, ?_⟩
    · intro r hr hrw
      have : actualWeight r ∈ (weekGroup c w).map actualWeight :=
        List.mem_map_of_mem actualWeight (mem_weekGroup.2 ⟨hr, hrw⟩)
      rw [hheavy]
      exact le_qmaxOpt_of_mem this hm
    · obtain ⟨r, hrg, hrm⟩ := List.mem_map.1 (qmaxOpt_mem hm)
      obtain ⟨hr, hrw⟩ := mem_weekGroup.1 hrg
      exact ⟨r, hr, hrw, by rw [hheavy, hrm]⟩
  · intro w
    constructor
    · intro hex
      have hw : w ∈ weekKeysAsc c := mem_weekKeysAsc.2 hex
      exact ⟨weeklyRow c w, mem_weekly_summary.2 ⟨w, hw, rfl⟩, rfl⟩
    · rintro ⟨row, hrow, rfl⟩
      obtain ⟨w', hw', rfl⟩ := mem_weekly_summary.1 hrow
      exact mem_weekKeysAsc.1 hw'

/-- Real dates in two different ISO years sharing the ISO week number 5:
2024-01-31 (2024-W05, day index 19753) and 2025-01-29 (2025-W05, day index
20117). -/
def demoCrossYear : List Record :=
  [mkRec ⟨19753, 5, 2024⟩ "Bench Press" 1 100 1, mkRec ⟨20117, 5, 2025⟩ "Squat" 1 200 1]

/-- C8 counterexample: the two ISO weeks 2024-W05 (volume 100) and 2025-W05
(volume 200) collapse into the single summary row of week number 5 with
total volume 300, so neither ISO week's row equals that week's own volume
sum. -/
theorem C8_counterexample_cross_year :
    (weekly_summary demoCrossYear).map WeeklyRow.totalVolume = [300] ∧
    specIsoWeekVolume demoCrossYear 2024 5 = 100 ∧
    specIsoWeekVolume demoCrossYear 2025 5 = 200 ∧
    (300 : ℚ) ≠ 100 ∧ (300 : ℚ) ≠ 200 := by
  refine ⟨?_, ?_, ?_, by norm_num, by norm_num⟩
  · norm_num [weekly_summary, weeklyRow, weekKeysAsc, weekGroup, recordWeek,
      demoCrossYear, mkRec, volume, actualWeight, List.insertionSort,
      List.orderedInsert, List.dedup_cons_of_not_mem, List.dedup_cons_of_mem,
      List.filterMap, List.filter]
  · norm_num [specIsoWeekVolume, demoCrossYear, mkRec, volume, actualWeight,
      List.filter]
  · norm_num [specIsoWeekVolume, demoCrossYear, mkRec, volume, actualWeight,
      List.filter]

/-- Witness for C8: week number 5 of the cross-year corpus owns a summary
row. -/
theorem C8_weekly_rows_witness :
    ∃ row ∈ weekly_summary demoCrossYear, row.week = 5 :=
  ((C8_weekly_rows demoCrossYear).2.2 5).1
    ⟨mkRec ⟨19753, 5, 2024⟩ "Bench Press" 1 100 1, by simp [demoCrossYear], rfl⟩

/-! ## C1 — PR flags -/

theorem mem_weightedBest {c : List Record} {e : String} {x : ℚ} :
    x ∈ weightedBest c e ↔
      ∃ s ∈ c, s.exercise = some e ∧ 0 < actualWeight s ∧ actualWeight s = x := by
  rw [weightedBest, List.mem_map]
  constructor
  · rintro ⟨s, hs, rfl⟩
    rw [List.mem_filter] at hs
    have h2 := hs.2
    simp only [Bool.and_eq_true, decide_eq_true_eq] at h2
    exact ⟨s, hs.1, h2.1, h2.2, rfl⟩
  · rintro ⟨s, hs, h1, h2, rfl⟩
    exact ⟨s, List.mem_filter.2 ⟨hs, by simp [h1, h2]⟩, rfl⟩

theorem mem_bodyweightGroup {c : List Record} {e : String} {s : Record} :
    s ∈ bodyweightGroup c e ↔ s ∈ c ∧ s.exercise = some e ∧ actualWeight s = 0 := by
  rw [bodyweightGroup, List.mem_filter]
  simp [and_assoc]

/-- C1: with the spec's data-model invariants (actual weights and rep
counts nonnegative), a record is flagged PR iff it has a named exercise and
either carries positive actual weight tying the maximum actual weight among
that exercise's weighted records, or carries zero actual weight and a rep
count tying the maximum rep count among that exercise's bodyweight records;
every tying record is flagged (nothing breaks ties) and a record whose
exercise is absent from the relevant best map (a missing name, or — for the
zero-weight map — impossible here since the record itself is in its group)
is never flagged. -/
theorem C1_pr_flag_iff_best (c : List Record) (r : Record) (hr : r ∈ c)
    (hw : ∀ s ∈ c, 0 ≤ actualWeight s)
    (hn : ∀ s ∈ c, 0 ≤ s.reps.getD 0) :
    assign_pr c r = true ↔
      (r.exercise ≠ none ∧
        ((0 < actualWeight r ∧ ∀ s ∈ c, s.exercise = r.exercise →
            0 < actualWeight s → actualWeight s ≤ actualWeight r) ∨
         (actualWeight r = 0 ∧ ∃ n, r.reps = some n ∧
            ∀ s ∈ c, s.exercise = r.exercise →
              actualWeight s = 0 → ∀ m, s.reps = some m → m ≤ n))) := by
  by_cases hz : actualWeight r = 0
  · rw [assign_pr, if_pos hz]
    cases hre : r.exercise with
    | none =>
      cases hrp : r.reps with
      | none => simp [prsRepsGet, hre, hrp]
      | some n =>
        have h0 : 0 ≤ n := by
          have := hn r hr
          rw [hrp] at this
          simpa using this
        have hne : ¬(n = (-1 : ℚ)) := by
          intro h
          rw [h] at h0
          norm_num at h0
        simp [prsRepsGet, hre, hrp, hne]
    | some e =>
      have hrg : r ∈ bodyweightGroup c e := mem_bodyweightGroup.2 ⟨hr, hre, hz⟩
      have hgrpne : ¬(bodyweightGroup c e).isEmpty = true := by
        rw [List.isEmpty_iff]
        intro h
        rw [h] at hrg
        cases hrg
      cases hrp : r.reps with
      | none =>
        simp only [hrp, hre]
        simp [hz, lt_irrefl]
      | some n =>
        obtain ⟨b, hb⟩ :
            ∃ b, qmaxOpt ((bodyweightGroup c e).filterMap Record.reps) = some b := by
          apply qmaxOpt_of_ne_nil
          intro hnil
          have hmem : n ∈ (bodyweightGroup c e).filterMap Record.reps :=
            List.mem_filterMap.2 ⟨r, hrg, hrp⟩
          rw [hnil] at hmem
          cases hmem
        have hlook : prsRepsGet c (some e) = some b := by
          rw [prsRepsGet]
          simp only [if_neg hgrpne]
          exact hb
        rw [hlook]
        constructor
        · intro hdec
          have hnb : n = b := by simpa using hdec
          refine ⟨by simp, Or.inr ⟨hz, n, rfl, ?_⟩⟩
          intro s hs hse hsz m hm
          have hmmem : m ∈ (bodyweightGroup c e).filterMap Record.reps :=
            List.mem_filterMap.2 ⟨s, mem_bodyweightGroup.2 ⟨hs, hse, hsz⟩, hm⟩
          rw [hnb]
          exact le_qmaxOpt_of_mem hmmem hb
        · rintro ⟨-, h | h⟩
          · rw [hz] at h
            exact absurd h.1 (lt_irrefl 0)
          · obtain ⟨-, n2, hn2, hbound⟩ := h
            have hnn : n2 = n := (Option.some.inj hn2).symm
            have hub : n ≤ b :=
              le_qmaxOpt_of_mem (List.mem_filterMap.2 ⟨r, hrg, hrp⟩) hb
            obtain ⟨s, hsg, hsm⟩ := List.mem_filterMap.1 (qmaxOpt_mem hb)
            obtain ⟨hs, hse, hsz⟩ := mem_bodyweightGroup.1 hsg
            have hlb : b ≤ n := by
              have hbn := hbound s hs hse hsz b hsm
              rw [hnn] at hbn
              exact hbn
            simp [le_antisymm hub hlb]
  · rw [assign_pr, if_neg hz]
    have hpos : 0 < actualWeight r := lt_of_le_of_ne (hw r hr) (Ne.symm hz)
    cases hre : r.exercise with
    | none =>
      have hno : ¬(actualWeight r = prsWeightGet c none) := by
        rw [prsWeightGet]
        intro h
        rw [h] at hpos
        norm_num at hpos
      simp [hre, hno]
    | some e =>
      have hmem : actualWeight r ∈ weightedBest c e :=
        mem_weightedBest.2 ⟨r, hr, hre, hpos, rfl⟩
      have hub := le_qmax_of_mem (-1) hmem
      have hqpos : 0 < qmax (weightedBest c e) (-1) := lt_of_lt_of_le hpos hub
      have hqmem : qmax (weightedBest c e) (-1) ∈ weightedBest c e := by
        rcases qmax_mem_or (weightedBest c e) (-1) with h | h
        · rw [h] at hqpos
          norm_num at hqpos
        · exact h
      constructor
      · intro hdec
        have heq : actualWeight r = qmax (weightedBest c e) (-1) := by
          simpa [prsWeightGet] using hdec
        refine ⟨by simp, Or.inl ⟨hpos, ?_⟩⟩
        intro s hs hse hspos
        have hsmem : actualWeight s ∈ weightedBest c e :=
          mem_weightedBest.2 ⟨s, hs, hse, hspos, rfl⟩
        rw [heq]
        exact le_qmax_of_mem (-1) hsmem
      · rintro ⟨-, h | h⟩
        · obtain ⟨-, hbound⟩ := h
          obtain ⟨s, hs, hse, hspos, hsval⟩ := mem_weightedBest.1 hqmem
          have h1 : qmax (weightedBest c e) (-1) ≤ actualWeight r := by
            rw [← hsval]
            exact hbound s hs hse hspos
          have heq : actualWeight r = qmax (weightedBest c e) (-1) :=
            le_antisymm hub h1
          simp [prsWeightGet, heq]
        · exact absurd h.1 hz

/-- Scenario 1 of the spec: three identical 100 kg × 5 "Back Squat" sets —
all three tie the best weight. -/
def demoTies : List Record :=
  [mkRec ⟨0, 1, 2024⟩ "Back Squat" 5 100 1, mkRec ⟨0, 1, 2024⟩ "Back Squat" 5 100 1,
   mkRec ⟨0, 1, 2024⟩ "Back Squat" 5 100 1]

/-- Witness for C1: a tying set of the three-way tie is flagged. -/
theorem C1_pr_flag_iff_best_witness :
    assign_pr demoTies (mkRec ⟨0, 1, 2024⟩ "Back Squat" 5 100 1) = true :=
  (C1_pr_flag_iff_best demoTies (mkRec ⟨0, 1, 2024⟩ "Back Squat" 5 100 1)
      (by simp [demoTies])
      (by
        intro s hs
        simp only [demoTies, List.mem_cons, List.not_mem_nil, or_false, or_self] at hs
        subst hs
        norm_num [actualWeight, mkRec])
      (by
        intro s hs
        simp only [demoTies, List.mem_cons, List.not_mem_nil, or_false, or_self] at hs
        subst hs
        norm_num [mkRec])).mpr
    ⟨by simp [mkRec], Or.inl ⟨by norm_num [actualWeight, mkRec], by
      intro s hs hse hsp
      simp only [demoTies, List.mem_cons, List.not_mem_nil, or_false, or_self] at hs
      subst hs
      exact le_refl _⟩⟩

/-! ## C6 — intensity percent (spec-modelled) -/

/-- C6 (spec-modelled): `intensity_percent` is
`one_rep_max_estimate / all_time_max × 100` exactly on weighted sets
(`actual_weight > 0`) and `0` otherwise, where `all_time_max` — the value
the definition receives the ENTIRE corpus `c` for, never a filtered view —
bounds the estimate of every record of the same exercise in the corpus. -/
theorem C6_intensity_spec (c : List Record) (r : Record) :
    (0 < actualWeight r →
        intensityPercent c r = (oneRM r).getD 0 / allTimeMax c r.exercise * 100) ∧
    (actualWeight r ≤ 0 → intensityPercent c r = 0) ∧
    (∀ s ∈ c, s.exercise = r.exercise → ∀ v, oneRM s = some v →
        v ≤ allTimeMax c r.exercise) := by
  refine ⟨fun h => by rw [intensityPercent, if_pos h],
    fun h => by rw [intensityPercent, if_neg (not_lt.2 h)], ?_⟩
  intro s hs hse v hv
  have hmem : v ∈ (c.filter fun x => decide (x.exercise = r.exercise)).filterMap oneRM :=
    List.mem_filterMap.2 ⟨s, List.mem_filter.2 ⟨hs, by simpa using hse⟩, hv⟩
  obtain ⟨m, hm⟩ := qmaxOpt_of_ne_nil (List.ne_nil_of_mem hmem)
  have hle := le_qmaxOpt_of_mem hmem hm
  simp only [allTimeMax, hm, Option.getD_some]
  exact hle

/-- Two bench-press sets; the all-time maximum estimate comes from the
100 kg set. -/
def demoIntensity : List Record :=
  [mkRec ⟨0, 1, 2024⟩ "Bench Press" 5 100 1, mkRec ⟨7, 2, 2024⟩ "Bench Press" 5 80 1]

/-- Witness for C6 on the two-set corpus. -/
theorem C6_intensity_spec_witness :
    intensityPercent demoIntensity (mkRec ⟨0, 1, 2024⟩ "Bench Press" 5 100 1) =
      (oneRM (mkRec ⟨0, 1, 2024⟩ "Bench Press" 5 100 1)).getD 0 /
        allTimeMax demoIntensity (mkRec ⟨0, 1, 2024⟩ "Bench Press" 5 100 1).exercise *
          100 :=
  (C6_intensity_spec demoIntensity (mkRec ⟨0, 1, 2024⟩ "Bench Press" 5 100 1)).1
    (by norm_num [actualWeight, mkRec])
